import Mathlib

/-!
Verification of `dizzy::flat_queue<T>` (src/unnamed/part_000, the most
complete snapshot of the repository; src/flat_queue.h and the other
snapshots differ only in the default multiplier, in `push` not calling
`check_and_grow`, and in the move constructor, noted at the relevant
definitions).

Shallow embedding conventions:
* `std::vector<T>` is modelled by `Vec`: its element list plus its
  capacity.  `reserve` only ever grows the capacity; `push_back` past
  capacity reallocates with the libstdc++ growth rule (capacity 1 from 0,
  otherwise doubling).
* `std::size_t` arithmetic appears only as `data_.size() - true_front`
  and is modelled by truncated `Nat` subtraction; the claims are stated
  on states satisfying `true_front <= length` where the two agree.
* The C++ `double mult_factor` is modelled as an exact rational given by
  a numerator/denominator pair (`Mult`): every multiplier the program
  ever passes (1.5 and 1.0 literals, and `new_size / size()` in
  `reserve`) is an exact rational, and `ceil(size() * mult_factor)`
  is then the integer `(size * num + den - 1) / den` (`ceilNat`); the
  lemma `ceilNat_eq_ceil` records that this is the real ceiling.
-/

/-- Model of `std::vector<T>`: the stored elements plus the allocated
capacity. -/
structure Vec (α : Type) : Type where
  elems : List α
  cap : Nat
deriving DecidableEq

/-- `std::vector::size()`. -/
def Vec.size (v : Vec α) : Nat := v.elems.length

/-- `std::vector::reserve(n)`: reallocates iff `n` exceeds the current
capacity; never shrinks. -/
def Vec.reserve (v : Vec α) (n : Nat) : Vec α :=
  if v.cap < n then { v with cap := n } else v

/-- Capacity chosen by `std::vector` when `push_back` hits a full buffer
(libstdc++: `size + max(size, 1)`, i.e. 1 from empty, else doubling). -/
def Vec.grownCap (c : Nat) : Nat := if c = 0 then 1 else 2 * c

/-- `std::vector::push_back`: append, reallocating when size has reached
capacity. -/
def Vec.push_back (v : Vec α) (a : α) : Vec α :=
  if v.elems.length < v.cap then ⟨v.elems ++ [a], v.cap⟩
  else ⟨v.elems ++ [a], Vec.grownCap v.cap⟩

/-- `std::vector::operator=(std::initializer_list)`: replaces the
contents; reuses the allocation when it is large enough, otherwise
allocates exactly the needed size. -/
def Vec.assignList (v : Vec α) (l : List α) : Vec α :=
  ⟨l, if v.cap < l.length then l.length else v.cap⟩

/-- An exact-rational stand-in for the C++ `double mult_factor`
(numerator / denominator). -/
structure Mult : Type where
  num : Nat
  den : Nat
deriving DecidableEq

/-- `ceil(s * (num / den))` computed in integers: `(s*num + den - 1) / den`.
This is the value `ceil(size() * mult_factor)` that
`compress_and_reserve` passes to `reserve` (part_000 line 276). -/
def ceilNat (s num den : Nat) : Nat := (s * num + den - 1) / den

/-- Default growth / reclaim multiplier of part_000:
`compress_and_reserve(double mult_factor = 1.5)` (line 98). -/
def growMult : Mult := ⟨3, 2⟩

/-- Model of `dizzy::flat_queue<T>` (part_000 lines 138-140): the backing
vector `data_` and the index `true_front` of the first live element. -/
structure FlatQueue (α : Type) : Type where
  data_ : Vec α
  true_front : Nat
deriving DecidableEq

/-- `flat_queue::size()` (line 194): `data_.size() - true_front` in
`std::size_t`; truncated subtraction under the invariant
`true_front <= data_.size()`. -/
def FlatQueue.size (q : FlatQueue α) : Nat :=
  q.data_.elems.length - q.true_front

/-- `flat_queue::empty()` (line 189): `data_.size() == true_front`. -/
def FlatQueue.empty (q : FlatQueue α) : Bool :=
  q.data_.elems.length == q.true_front

/-- The logical window `[begin(), end())` = buffer positions
`[true_front, L)` (lines 308-320): what iteration, comparison and
`compress_and_reserve` operate on. -/
def FlatQueue.logical (q : FlatQueue α) : List α :=
  q.data_.elems.drop q.true_front

/-- `flat_queue::front()` (line 199): `data_[true_front]`, unchecked in
C++; modelled with an optional result. -/
def FlatQueue.front? (q : FlatQueue α) : Option α :=
  q.data_.elems[q.true_front]?

/-- `flat_queue::operator[]` (line 219): `data_[true_front + pos]`. -/
def FlatQueue.at? (q : FlatQueue α) (pos : Nat) : Option α :=
  q.data_.elems[q.true_front + pos]?

/-- `flat_queue::compress_and_reserve(mult_factor)` (lines 273-280):
a fresh vector, `reserve(ceil(size() * mult_factor))`, move the window
`[begin(), end())` through a `back_inserter`, swap it in, reset
`true_front`. -/
def FlatQueue.compress_and_reserve (q : FlatQueue α) (m : Mult) : FlatQueue α :=
  let temp : Vec α := Vec.reserve ⟨[], 0⟩ (ceilNat q.size m.num m.den)
  ⟨q.logical.foldl Vec.push_back temp, 0⟩

/-- `flat_queue::check_and_grow()` (lines 228-233): compact with the
default multiplier exactly when the vector is full. -/
def FlatQueue.check_and_grow (q : FlatQueue α) : FlatQueue α :=
  if q.data_.elems.length = q.data_.cap then q.compress_and_reserve growMult else q

/-- `flat_queue::push` (lines 235-245; `emplace`, lines 247-251, embeds
identically): `check_and_grow()` then `data_.push_back(val)`. -/
def FlatQueue.push (q : FlatQueue α) (v : α) : FlatQueue α :=
  let q2 := q.check_and_grow
  ⟨q2.data_.push_back v, q2.true_front⟩

/-- `flat_queue::pop()` (lines 253-259): `++true_front`, then compact
with the default multiplier when `true_front > data_.size() / 2`. -/
def FlatQueue.pop (q : FlatQueue α) : FlatQueue α :=
  let q2 : FlatQueue α := ⟨q.data_, q.true_front + 1⟩
  if q2.true_front > q2.data_.elems.length / 2 then q2.compress_and_reserve growMult
  else q2

/-- `flat_queue::shrink_to_fit()` (line 262): `compress_and_reserve(1.0)`. -/
def FlatQueue.shrink_to_fit (q : FlatQueue α) : FlatQueue α :=
  q.compress_and_reserve ⟨1, 1⟩

/-- `flat_queue::reserve(new_size)` (lines 264-271): reserve directly on
the vector when empty, otherwise compact with multiplier
`new_size / double(size())` — exactly the rational `new_size / size()`. -/
def FlatQueue.reserve (q : FlatQueue α) (n : Nat) : FlatQueue α :=
  if q.empty then ⟨q.data_.reserve n, q.true_front⟩
  else q.compress_and_reserve ⟨n, q.size⟩

/-- `flat_queue::clear()` (lines 282-286): `data_.clear()` (capacity
retained) and `true_front = 0`. -/
def FlatQueue.clear (q : FlatQueue α) : FlatQueue α :=
  ⟨⟨[], q.data_.cap⟩, 0⟩

/-- `flat_queue(std::initializer_list)` (line 161): `data_{init}`; the
vector allocates exactly the list size, `true_front` defaults to 0. -/
def FlatQueue.fromList (l : List α) : FlatQueue α :=
  ⟨⟨l, l.length⟩, 0⟩

/-- The defaulted move constructor / move assignment
(`flat_queue( flat_queue&& ) noexcept = default`, lines 69 and 74):
member-wise move.  The vector member is moved (the source vector is left
empty with no allocation), but `true_front` is a scalar, so the *source
keeps its old `true_front`* — nothing resets it.  Returns
(move target, source after the move). -/
def FlatQueue.move_construct (q : FlatQueue α) : FlatQueue α × FlatQueue α :=
  (⟨q.data_, q.true_front⟩, ⟨⟨[], 0⟩, q.true_front⟩)

/-- `flat_queue::operator=(std::initializer_list)` (lines 170-174): the
body is `data_ = init; true_front = 0;` and then falls off the end of a
`flat_queue&`-returning function — no `return *this;` on any path
(undefined behavior in C++).  The second component is the returned
value: `none` records that control reaches the end of the body without
executing a return statement. -/
def FlatQueue.assignInitList (q : FlatQueue α) (init : List α) :
    FlatQueue α × Option Unit :=
  (⟨q.data_.assignList init, 0⟩, none)

/-- `std::lexicographical_compare(first1,last1,first2,last2)` on the
element ranges (used at part_000 lines 363-368). -/
def lexLt [LinearOrder α] : List α → List α → Bool
  | _, [] => false
  | [], _ :: _ => true
  | a :: as, b :: bs => if a < b then true else if b < a then false else lexLt as bs

/-- `std::equal(first1,last1,first2)`: walks the first range, comparing
element-wise.  Only ever called by `operator==` after the size guard, so
the second range is never shorter. -/
def listEqual [DecidableEq α] : List α → List α → Bool
  | [], _ => true
  | _ :: _, [] => true
  | a :: as, b :: bs => if a = b then listEqual as bs else false

/-- `operator==` (lines 348-355): size guard, then `std::equal` over the
logical windows. -/
def fqEq [DecidableEq α] (lhs rhs : FlatQueue α) : Bool :=
  if lhs.size ≠ rhs.size then false
  else listEqual lhs.logical rhs.logical

/-- `operator<` (lines 363-368): `std::lexicographical_compare` over the
logical windows. -/
def fqLt [LinearOrder α] (lhs rhs : FlatQueue α) : Bool :=
  lexLt lhs.logical rhs.logical

/-- `operator<=` (lines 370-374): `!(rhs < lhs)`. -/
def fqLe [LinearOrder α] (lhs rhs : FlatQueue α) : Bool :=
  !(fqLt rhs lhs)

/-- `operator>` (lines 376-380): `rhs < lhs`. -/
def fqGt [LinearOrder α] (lhs rhs : FlatQueue α) : Bool :=
  fqLt rhs lhs

/-- `operator>=` (lines 382-386): `!(lhs < rhs)`. -/
def fqGe [LinearOrder α] (lhs rhs : FlatQueue α) : Bool :=
  !(fqLt lhs rhs)

/-- The default-constructed queue: empty vector, no allocation,
`true_front = 0`. -/
def emptyQ (α : Type) : FlatQueue α := ⟨⟨[], 0⟩, 0⟩

/-- Push the values `0, 1, ..., k-1` in order onto `q` (the concrete
operation sequence of spec Scenario 4). -/
def pushSeq (q : FlatQueue Nat) : Nat → FlatQueue Nat
  | 0 => q
  | k + 1 => (pushSeq q k).push k

/-- Pop `k` times, one pop at a time. -/
def popN (q : FlatQueue α) : Nat → FlatQueue α
  | 0 => q
  | k + 1 => (popN q k).pop

/-- The queue of spec Scenario 4: push 100 elements, then pop 60. -/
def scenario4 : FlatQueue Nat := popN (pushSeq (emptyQ Nat) 100) 60

set_option maxRecDepth 100000

/-! ### Basic lemmas about the vector model -/

theorem Vec.push_back_elems (v : Vec α) (a : α) :
    (v.push_back a).elems = v.elems ++ [a] := by
  unfold Vec.push_back
  split <;> rfl

theorem Vec.foldl_push_back_elems (l : List α) :
    ∀ v : Vec α, (l.foldl Vec.push_back v).elems = v.elems ++ l := by
  induction l with
  | nil => intro v; simp
  | cons a l ih =>
    intro v
    simp only [List.foldl_cons, ih, Vec.push_back_elems, List.append_assoc,
      List.singleton_append]

theorem Vec.foldl_push_back_cap (l : List α) :
    ∀ v : Vec α, v.elems.length + l.length ≤ v.cap →
      (l.foldl Vec.push_back v).cap = v.cap := by
  induction l with
  | nil => intro v _; rfl
  | cons a l ih =>
    intro v h
    simp only [List.length_cons] at h
    have hlt : v.elems.length < v.cap := by omega
    simp only [List.foldl_cons]
    rw [Vec.push_back, if_pos hlt]
    exact ih _ (by simp; omega)

theorem Vec.push_back_wf (v : Vec α) (a : α) (h : v.elems.length ≤ v.cap) :
    (v.push_back a).elems.length ≤ (v.push_back a).cap := by
  by_cases hlt : v.elems.length < v.cap
  · rw [Vec.push_back, if_pos hlt]
    simp only [List.length_append, List.length_singleton]
    omega
  · rw [Vec.push_back, if_neg hlt]
    unfold Vec.grownCap
    by_cases hc : v.cap = 0
    · rw [if_pos hc]
      simp only [List.length_append, List.length_singleton]
      omega
    · rw [if_neg hc]
      simp only [List.length_append, List.length_singleton]
      omega

theorem Vec.foldl_push_back_wf (l : List α) :
    ∀ v : Vec α, v.elems.length ≤ v.cap →
      (l.foldl Vec.push_back v).elems.length ≤ (l.foldl Vec.push_back v).cap := by
  induction l with
  | nil => intro v h; exact h
  | cons a l ih =>
    intro v h
    simp only [List.foldl_cons]
    exact ih _ (Vec.push_back_wf v a h)

theorem Vec.reserve_empty_cap (c : Nat) :
    (Vec.reserve (⟨[], 0⟩ : Vec α) c).cap = c := by
  unfold Vec.reserve
  split <;> simp_all

theorem Vec.reserve_elems (v : Vec α) (n : Nat) : (v.reserve n).elems = v.elems := by
  unfold Vec.reserve
  split <;> rfl

theorem Vec.reserve_cap (v : Vec α) (n : Nat) : (v.reserve n).cap = max v.cap n := by
  unfold Vec.reserve
  split <;> simp <;> omega

/-! ### Basic lemmas about the queue model -/

theorem FlatQueue.size_eq_length_logical (q : FlatQueue α) :
    q.size = q.logical.length := by
  simp [FlatQueue.size, FlatQueue.logical]

theorem FlatQueue.compress_elems (q : FlatQueue α) (m : Mult) :
    (q.compress_and_reserve m).data_.elems = q.logical := by
  unfold FlatQueue.compress_and_reserve
  rw [Vec.foldl_push_back_elems, Vec.reserve_elems]
  rfl

theorem FlatQueue.compress_true_front (q : FlatQueue α) (m : Mult) :
    (q.compress_and_reserve m).true_front = 0 := rfl

theorem FlatQueue.compress_logical (q : FlatQueue α) (m : Mult) :
    (q.compress_and_reserve m).logical = q.logical := by
  show (q.compress_and_reserve m).data_.elems.drop
      (q.compress_and_reserve m).true_front = q.logical
  rw [FlatQueue.compress_true_front, FlatQueue.compress_elems, List.drop_zero]

theorem FlatQueue.compress_size (q : FlatQueue α) (m : Mult) :
    (q.compress_and_reserve m).size = q.size := by
  rw [FlatQueue.size_eq_length_logical, FlatQueue.size_eq_length_logical,
    FlatQueue.compress_logical]

theorem FlatQueue.compress_cap (q : FlatQueue α) (m : Mult)
    (h : q.size ≤ ceilNat q.size m.num m.den) :
    (q.compress_and_reserve m).data_.cap = ceilNat q.size m.num m.den := by
  unfold FlatQueue.compress_and_reserve
  rw [Vec.foldl_push_back_cap _ _ (by
    rw [Vec.reserve_elems, Vec.reserve_empty_cap]
    simpa [← FlatQueue.size_eq_length_logical] using h)]
  exact Vec.reserve_empty_cap _

theorem FlatQueue.compress_cap_ge_size (q : FlatQueue α) (m : Mult) :
    (q.compress_and_reserve m).size ≤ (q.compress_and_reserve m).data_.cap := by
  have h := Vec.foldl_push_back_wf q.logical
    (Vec.reserve (⟨[], 0⟩ : Vec α) (ceilNat q.size m.num m.den))
    (by rw [Vec.reserve_elems]; simp)
  calc (q.compress_and_reserve m).size
      = (q.compress_and_reserve m).data_.elems.length := by
        rw [FlatQueue.size_eq_length_logical]
        unfold FlatQueue.logical
        rw [FlatQueue.compress_true_front, List.drop_zero]
    _ ≤ (q.compress_and_reserve m).data_.cap := h

/-! ### Lemmas about the lexicographic comparison -/

theorem lexLt_iff_Lex [LinearOrder α] :
    ∀ as bs : List α, lexLt as bs = true ↔ List.Lex (· < ·) as bs
  | [], [] => by
    simp only [lexLt]
    exact iff_of_false (by simp) (List.Lex.not_nil_right _ _)
  | [], _ :: _ => by
    simp only [lexLt]
    exact iff_of_true trivial List.Lex.nil
  | _ :: _, [] => by
    simp only [lexLt]
    exact iff_of_false (by simp) (List.Lex.not_nil_right _ _)
  | a :: as, b :: bs => by
    simp only [lexLt]
    rcases lt_trichotomy a b with hab | hab | hab
    · rw [if_pos hab]
      exact iff_of_true rfl (List.Lex.rel hab)
    · rcases hab
      rw [if_neg (lt_irrefl a), if_neg (lt_irrefl a)]
      rw [lexLt_iff_Lex as bs]
      exact (List.Lex.cons_iff (r := (· < ·))).symm
    · rw [if_neg (asymm hab), if_pos hab]
      constructor
      · intro h; cases h
      · intro h
        cases h with
        | cons h2 => exact absurd hab (lt_irrefl a)
        | rel h2 => exact absurd (lt_trans h2 hab) (lt_irrefl a)

theorem lexLt_irrefl [LinearOrder α] : ∀ as : List α, lexLt as as = false
  | [] => rfl
  | a :: as => by
    simp only [lexLt, lt_irrefl, if_false]
    exact lexLt_irrefl as

theorem lexLt_trans [LinearOrder α] :
    ∀ as bs cs : List α, lexLt as bs = true → lexLt bs cs = true →
      lexLt as cs = true
  | _, bs, [] => by intro _ h2; simp [lexLt] at h2
  | [], [], _ :: _ => by intro h1 _; simp [lexLt] at h1
  | [], b :: bs, c :: cs => by intro _ _; rfl
  | a :: as, [], c :: cs => by intro h1 _; simp [lexLt] at h1
  | a :: as, b :: bs, c :: cs => by
    intro h1 h2
    simp only [lexLt] at h1 h2 ⊢
    rcases lt_trichotomy a b with hab | hab | hab
    · rcases lt_trichotomy b c with hbc | hbc | hbc
      · rw [if_pos (lt_trans hab hbc)]
      · rcases hbc; rw [if_pos hab]
      · rw [if_neg (asymm hbc), if_pos hbc] at h2; cases h2
    · rcases hab
      rw [if_neg (lt_irrefl a), if_neg (lt_irrefl a)] at h1
      rcases lt_trichotomy a c with hac | hac | hac
      · rw [if_pos hac]
      · rcases hac
        rw [if_neg (lt_irrefl a), if_neg (lt_irrefl a)] at h2 ⊢
        exact lexLt_trans as bs cs h1 h2
      · rw [if_neg (asymm hac), if_pos hac] at h2; cases h2
    · rw [if_neg (asymm hab), if_pos hab] at h1; cases h1

theorem lexLt_asymm [LinearOrder α] (as bs : List α)
    (h : lexLt as bs = true) : lexLt bs as = false := by
  by_contra hc
  have h2 : lexLt bs as = true := by
    cases hb : lexLt bs as
    · exact absurd hb hc
    · rfl
  have h3 := lexLt_trans as bs as h h2
  rw [lexLt_irrefl] at h3
  cases h3

theorem lexLt_eq_of_not_lt [LinearOrder α] :
    ∀ as bs : List α, lexLt as bs = false → lexLt bs as = false → as = bs
  | [], [] => by intro _ _; rfl
  | [], _ :: _ => by intro h1 _; simp [lexLt] at h1
  | _ :: _, [] => by intro _ h2; simp [lexLt] at h2
  | a :: as, b :: bs => by
    intro h1 h2
    simp only [lexLt] at h1 h2
    rcases lt_trichotomy a b with hab | hab | hab
    · rw [if_pos hab] at h1; cases h1
    · rcases hab
      rw [if_neg (lt_irrefl a), if_neg (lt_irrefl a)] at h1 h2
      rw [lexLt_eq_of_not_lt as bs h1 h2]
    · rw [if_pos hab] at h2
      cases h2

theorem lexLt_connected [LinearOrder α] :
    ∀ as cs bs : List α, lexLt as cs = true →
      lexLt as bs = true ∨ lexLt bs cs = true
  | _, [], _ => by intro h; simp [lexLt] at h
  | [], c :: cs, [] => by intro _; exact Or.inr rfl
  | [], c :: cs, b :: bs => by intro _; exact Or.inl rfl
  | a :: as, c :: cs, [] => by intro _; exact Or.inr rfl
  | a :: as, c :: cs, b :: bs => by
    intro h
    simp only [lexLt] at h ⊢
    rcases lt_trichotomy a b with hab | hab | hab
    · exact Or.inl (by rw [if_pos hab])
    · rcases lt_trichotomy a c with hac | hac | hac
      · refine Or.inr ?_
        have hbc : b < c := hab ▸ hac
        rw [if_pos hbc]
      · rcases hac
        rcases hab
        rw [if_neg (lt_irrefl a), if_neg (lt_irrefl a)] at h
        rcases lexLt_connected as cs bs h with hl | hr
        · exact Or.inl (by rw [if_neg (lt_irrefl a), if_neg (lt_irrefl a)]; exact hl)
        · exact Or.inr (by rw [if_neg (lt_irrefl a), if_neg (lt_irrefl a)]; exact hr)
      · rw [if_neg (asymm hac), if_pos hac] at h; cases h
    · rcases lt_trichotomy b c with hbc | hbc | hbc
      · exact Or.inr (by rw [if_pos hbc])
      · have hca : c < a := hbc ▸ hab
        rw [if_neg (asymm hca), if_pos hca] at h; cases h
      · have hca : c < a := lt_trans hbc hab
        rw [if_neg (asymm hca), if_pos hca] at h; cases h

/-! ### Lemmas about element-wise equality -/

theorem listEqual_iff [DecidableEq α] :
    ∀ as bs : List α, as.length = bs.length →
      (listEqual as bs = true ↔ as = bs)
  | [], [] => by intro _; simp [listEqual]
  | [], _ :: _ => by intro h; cases h
  | _ :: _, [] => by intro h; cases h
  | a :: as, b :: bs => by
    intro h
    simp only [List.length_cons, Nat.add_right_cancel_iff] at h
    simp only [listEqual]
    by_cases hab : a = b
    · rcases hab
      rw [if_pos rfl, listEqual_iff as bs h]
      simp
    · rw [if_neg hab]
      simp [hab]

/-- `ceilNat` is the real ceiling `ceil(s * (num / den))` the C++ code
computes (for exactly representable values of the double `mult_factor`). -/
theorem ceilNat_eq_ceil (s num den : Nat) (h : 0 < den) :
    ceilNat s num den = Nat.ceil ((s : ℚ) * ((num : ℚ) / (den : ℚ))) := by
  have hcast : (s : ℚ) * ((num : ℚ) / (den : ℚ)) = ((s * num : Nat) : ℚ) / (den : ℚ) := by
    push_cast
    ring
  rw [hcast]
  set a := s * num with ha_def
  rcases Nat.eq_zero_or_pos a with ha | ha
  · rw [ha]
    simp only [Nat.cast_zero, zero_div, Nat.ceil_zero]
    unfold ceilNat
    rw [← ha_def, ha]
    simp only [Nat.zero_add]
    exact Nat.div_eq_of_lt (by omega)
  · have hceil : ceilNat s num den = (a + den - 1) / den := rfl
    set c := (a + den - 1) / den with hc_def
    have key : a ≤ den * c ∧ den * c < a + den := by
      have e1 := Nat.div_add_mod (a + den - 1) den
      have e2 : (a + den - 1) % den < den := Nat.mod_lt _ h
      rw [← hc_def] at e1
      generalize den * c = t at e1 ⊢
      omega
    have hc0 : c ≠ 0 := by
      rintro hcz
      rw [hcz, Nat.mul_zero] at key
      omega
    have hden2 : (0 : ℚ) < (den : ℚ) := by exact_mod_cast h
    rw [hceil]
    refine ((Nat.ceil_eq_iff hc0).mpr ⟨?_, ?_⟩).symm
    · rw [lt_div_iff₀ hden2]
      have k2 : (den : ℚ) * (c : ℚ) < (a : ℚ) + (den : ℚ) := by exact_mod_cast key.2
      have hc1 : 1 ≤ c := Nat.one_le_iff_ne_zero.mpr hc0
      rw [Nat.cast_sub hc1, Nat.cast_one]
      linarith
    · rw [div_le_iff₀ hden2]
      have k1 : (a : ℚ) ≤ (den : ℚ) * (c : ℚ) := by exact_mod_cast key.1
      linarith

/-! ### Equational helpers for the operations -/

theorem FlatQueue.pop_eq (q : FlatQueue α) :
    q.pop = if q.true_front + 1 > q.data_.elems.length / 2 then
      FlatQueue.compress_and_reserve ⟨q.data_, q.true_front + 1⟩ growMult
    else ⟨q.data_, q.true_front + 1⟩ := rfl

theorem FlatQueue.check_and_grow_full (q : FlatQueue α)
    (h : q.data_.elems.length = q.data_.cap) :
    q.check_and_grow = q.compress_and_reserve growMult := by
  rw [FlatQueue.check_and_grow, if_pos h]

theorem FlatQueue.check_and_grow_not_full (q : FlatQueue α)
    (h : q.data_.elems.length ≠ q.data_.cap) :
    q.check_and_grow = q := by
  rw [FlatQueue.check_and_grow, if_neg h]

theorem FlatQueue.push_eq (q : FlatQueue α) (v : α) :
    q.push v = ⟨q.check_and_grow.data_.push_back v, q.check_and_grow.true_front⟩ := rfl

/-! ### Claim theorems -/

/-- Claim C1, counterexample to the capacity clause as stated: on the
queue with buffer `[0, 1]` (capacity 2, `true_front` 0) and multiplier
`1/2`, `compress_and_reserve` requests `ceil(2 * (1/2)) = 1` but the
element moves overflow that reservation and the new buffer ends with
capacity 2, not `ceil(logical_size() * multiplier)`. -/
theorem c1_capacity_counterexample :
    ¬ (((⟨⟨[0, 1], 2⟩, 0⟩ : FlatQueue Nat).compress_and_reserve ⟨1, 2⟩).data_.cap =
        Nat.ceil (((⟨⟨[0, 1], 2⟩, 0⟩ : FlatQueue Nat).size : ℚ) *
          (((1 : Nat) : ℚ) / ((2 : Nat) : ℚ)))) := by
  rw [show ((⟨⟨[0, 1], 2⟩, 0⟩ : FlatQueue Nat).size : ℚ) = (((2 : Nat) : Nat) : ℚ) by norm_num [FlatQueue.size]]
  rw [← ceilNat_eq_ceil 2 1 2 (by norm_num)]
  decide

/-- Claim C1 (amended): `compress_and_reserve(multiplier)` on any queue
moves exactly the logical window `[front_offset, L)` to the start of a
new buffer, resets `front_offset` to 0, preserves every element at every
logical index and `size()`, and the new buffer's capacity is
`ceil(logical_size() * multiplier)` whenever that ceiling is at least
`logical_size()` (in particular for every multiplier at least 1); when
the ceiling is smaller, the final capacity is instead at least
`logical_size()`. -/
theorem c1_compress_and_reserve_spec (α : Type) (q : FlatQueue α) (m : Mult) :
    (q.compress_and_reserve m).data_.elems = q.logical ∧
    (q.compress_and_reserve m).true_front = 0 ∧
    (q.compress_and_reserve m).logical = q.logical ∧
    (∀ i : Nat, ((q.compress_and_reserve m).logical)[i]? = (q.logical)[i]?) ∧
    (q.compress_and_reserve m).size = q.size ∧
    (q.compress_and_reserve m).size ≤ (q.compress_and_reserve m).data_.cap ∧
    (q.size ≤ ceilNat q.size m.num m.den →
      (q.compress_and_reserve m).data_.cap = ceilNat q.size m.num m.den) := by
  refine ⟨FlatQueue.compress_elems q m, FlatQueue.compress_true_front q m,
    FlatQueue.compress_logical q m, ?_, FlatQueue.compress_size q m,
    FlatQueue.compress_cap_ge_size q m, FlatQueue.compress_cap q m⟩
  intro i
  rw [FlatQueue.compress_logical]

/-- Witness for C1 at the queue `[5]` with the default multiplier 1.5:
the ceiling `ceil(1 * 1.5) = 2` is at least the size 1, and the new
capacity is exactly that ceiling. -/
theorem c1_witness :
    (⟨⟨[5], 1⟩, 0⟩ : FlatQueue Nat).size ≤ ceilNat (⟨⟨[5], 1⟩, 0⟩ : FlatQueue Nat).size 3 2 ∧
    ((⟨⟨[5], 1⟩, 0⟩ : FlatQueue Nat).compress_and_reserve ⟨3, 2⟩).data_.cap =
      ceilNat (⟨⟨[5], 1⟩, 0⟩ : FlatQueue Nat).size 3 2 :=
  ⟨by decide,
    (c1_compress_and_reserve_spec Nat ⟨⟨[5], 1⟩, 0⟩ ⟨3, 2⟩).2.2.2.2.2.2 (by decide)⟩

/-- Claim C2: on a non-empty queue, `pop()` increments `front_offset` by
exactly 1; if the incremented offset exceeds `L / 2` the compaction
primitive runs with the reclaim multiplier and `front_offset` is reset
to 0; otherwise the buffer is untouched and only the offset moved; in
both cases the remaining logical elements are the old ones minus the
head. -/
theorem c2_pop_spec (α : Type) (q : FlatQueue α)
    (hne : q.true_front < q.data_.elems.length) :
    (q.true_front + 1 > q.data_.elems.length / 2 →
        q.pop = FlatQueue.compress_and_reserve ⟨q.data_, q.true_front + 1⟩ growMult ∧
        q.pop.true_front = 0) ∧
    (¬ (q.true_front + 1 > q.data_.elems.length / 2) →
        q.pop = ⟨q.data_, q.true_front + 1⟩) ∧
    q.pop.logical = q.logical.tail := by
  rw [FlatQueue.pop_eq]
  by_cases htr : q.true_front + 1 > q.data_.elems.length / 2
  · rw [if_pos htr]
    refine ⟨fun _ => ⟨rfl, FlatQueue.compress_true_front _ _⟩, fun h => absurd htr h, ?_⟩
    rw [FlatQueue.compress_logical]
    show q.data_.elems.drop (q.true_front + 1) = q.logical.tail
    rw [FlatQueue.logical, List.tail_drop]
  · rw [if_neg htr]
    refine ⟨fun h => absurd h htr, fun _ => rfl, ?_⟩
    show q.data_.elems.drop (q.true_front + 1) = q.logical.tail
    rw [FlatQueue.logical, List.tail_drop]

/-- Witness for C2 on the non-empty queue `[10, 20]` with offset 0: the
pop does not trigger reclaim and just moves the offset. -/
theorem c2_witness :
    (0 : Nat) < 2 ∧
    FlatQueue.pop (⟨⟨[10, 20], 2⟩, 0⟩ : FlatQueue Nat) = ⟨⟨[10, 20], 2⟩, 1⟩ ∧
    (FlatQueue.pop (⟨⟨[10, 20], 2⟩, 0⟩ : FlatQueue Nat)).logical = [20] :=
  ⟨by decide,
    (c2_pop_spec Nat ⟨⟨[10, 20], 2⟩, 0⟩ (by decide)).2.1 (by decide),
    ((c2_pop_spec Nat ⟨⟨[10, 20], 2⟩, 0⟩ (by decide)).2.2).trans (by decide)⟩

/-- Claim C3: `push(v)` (and `emplace`) first runs the compaction
primitive with the growth multiplier exactly when `L == C`, then appends
`v`; the logical sequence becomes the old one followed by `v` and
`size()` grows by 1; and on an empty queue `push(a); push(b); pop()`
leaves `front()` returning `b` (FIFO). -/
theorem c3_push_spec (α : Type) (q : FlatQueue α) (v : α)
    (hwf : q.true_front ≤ q.data_.elems.length) :
    (q.data_.elems.length = q.data_.cap →
        q.push v = ⟨(q.compress_and_reserve growMult).data_.push_back v, 0⟩) ∧
    (q.data_.elems.length ≠ q.data_.cap →
        q.push v = ⟨q.data_.push_back v, q.true_front⟩) ∧
    (q.push v).logical = q.logical ++ [v] ∧
    (q.push v).size = q.size + 1 ∧
    (∀ a b : α, (((emptyQ α).push a).push b).pop.front? = some b) := by
  have hlog : (q.push v).logical = q.logical ++ [v] := by
    rw [FlatQueue.push_eq]
    by_cases hc : q.data_.elems.length = q.data_.cap
    · rw [FlatQueue.check_and_grow_full q hc]
      show ((q.compress_and_reserve growMult).data_.push_back v).elems.drop
        (q.compress_and_reserve growMult).true_front = _
      rw [FlatQueue.compress_true_front, Vec.push_back_elems,
        FlatQueue.compress_elems, List.drop_zero]
    · rw [FlatQueue.check_and_grow_not_full q hc]
      show (q.data_.push_back v).elems.drop q.true_front = _
      rw [Vec.push_back_elems, List.drop_append_of_le_length hwf]
      rfl
  refine ⟨?_, ?_, hlog, ?_, ?_⟩
  · intro hc
    rw [FlatQueue.push_eq, FlatQueue.check_and_grow_full q hc,
      FlatQueue.compress_true_front]
  · intro hc
    rw [FlatQueue.push_eq, FlatQueue.check_and_grow_not_full q hc]
  · rw [FlatQueue.size_eq_length_logical, FlatQueue.size_eq_length_logical,
      hlog, List.length_append, List.length_singleton]
  · intro a b
    simp [FlatQueue.pop, FlatQueue.push, FlatQueue.check_and_grow,
      FlatQueue.compress_and_reserve, FlatQueue.front?, FlatQueue.logical,
      FlatQueue.size, Vec.push_back, Vec.reserve, Vec.grownCap, ceilNat,
      emptyQ, growMult]

/-- Witness for C3 on the queue `[1]` with capacity 2 (not full) and the
pushed value 2. -/
theorem c3_witness :
    (0 : Nat) ≤ 1 ∧
    FlatQueue.push (⟨⟨[1], 2⟩, 0⟩ : FlatQueue Nat) 2 = ⟨⟨[1, 2], 2⟩, 0⟩ ∧
    (FlatQueue.push (⟨⟨[1], 2⟩, 0⟩ : FlatQueue Nat) 2).size = 2 :=
  ⟨by decide,
    ((c3_push_spec Nat ⟨⟨[1], 2⟩, 0⟩ 2 (by decide)).2.1 (by decide)).trans (by decide),
    ((c3_push_spec Nat ⟨⟨[1], 2⟩, 0⟩ 2 (by decide)).2.2.2.1).trans (by decide)⟩

/-- Claim C4 is violated by the code: the defaulted move constructor /
move assignment moves the vector member but merely copies the scalar
`true_front`.  Moving from `flat_queue{3,4}` after one `pop()` (offset
1) leaves the source with offset still 1 over an emptied buffer — the
source is not empty by its own `empty()` and its offset was not reset
to 0. -/
theorem c4_moved_from_state :
    ((FlatQueue.move_construct ((FlatQueue.fromList [3, 4]).pop)).2.true_front = 1) ∧
    ((FlatQueue.move_construct ((FlatQueue.fromList [3, 4]).pop)).2.data_.elems = []) ∧
    ((FlatQueue.move_construct ((FlatQueue.fromList [3, 4]).pop)).2.empty = false) := by
  decide

/-- Claim C5: `operator==` returns true iff the logical sizes match and
the logical elements are pairwise equal in order, i.e. iff the logical
windows coincide — dead prefixes are irrelevant. -/
theorem c5_eq_spec (α : Type) [DecidableEq α] (p q : FlatQueue α) :
    fqEq p q = true ↔ p.logical = q.logical := by
  unfold fqEq
  by_cases hs : p.size = q.size
  · rw [if_neg (not_not_intro hs)]
    exact listEqual_iff _ _ (by
      rw [← FlatQueue.size_eq_length_logical, ← FlatQueue.size_eq_length_logical, hs])
  · rw [if_pos hs]
    refine iff_of_false (by simp) ?_
    intro h
    exact hs (by
      rw [FlatQueue.size_eq_length_logical, FlatQueue.size_eq_length_logical, h])

/-- Witness for C5: the queue built as `{1,2,3}` then popped once equals
the queue constructed directly from `{2,3}` (the spec's own example). -/
theorem c5_witness :
    fqEq (FlatQueue.pop (FlatQueue.fromList [1, 2, 3]))
      (FlatQueue.fromList ([2, 3] : List Nat)) = true :=
  (c5_eq_spec Nat _ _).mpr (by decide)

/-- Claim C6: `operator<` is `std::lexicographical_compare` over the
logical windows, which is the standard lexicographic strict order on the
logical contents (`List.Lex`, shorter-is-less on a strict prefix);
`>`, `<=`, `>=` are derived from `<` exactly as in the source
(`rhs < lhs`, `!(rhs < lhs)`, `!(lhs < rhs)`); and the result is a
consistent total order on logical contents: `<=` is total, transitive,
and two queues each `<=` the other have equal logical windows. -/
theorem c6_order_spec (α : Type) [LinearOrder α] (p q r : FlatQueue α) :
    (fqLt p q = true ↔ List.Lex (· < ·) p.logical q.logical) ∧
    fqGt p q = fqLt q p ∧
    fqLe p q = !(fqLt q p) ∧
    fqGe p q = !(fqLt p q) ∧
    (fqLe p q = true ∨ fqLe q p = true) ∧
    (fqLe p q = true → fqLe q r = true → fqLe p r = true) ∧
    (fqLe p q = true → fqLe q p = true → p.logical = q.logical) := by
  refine ⟨lexLt_iff_Lex _ _, rfl, rfl, rfl, ?_, ?_, ?_⟩
  · by_cases h1 : lexLt q.logical p.logical = true
    · right
      show (!(fqLt p q)) = true
      unfold fqLt
      rw [lexLt_asymm _ _ h1]
      rfl
    · left
      show (!(fqLt q p)) = true
      unfold fqLt
      have h1f : lexLt q.logical p.logical = false := by
        simpa using h1
      rw [h1f]
      rfl
  · intro h1 h2
    show (!(fqLt r p)) = true
    have h1f : lexLt q.logical p.logical = false := by
      have : (!(fqLt q p)) = true := h1
      simpa [fqLt] using this
    have h2f : lexLt r.logical q.logical = false := by
      have : (!(fqLt r q)) = true := h2
      simpa [fqLt] using this
    unfold fqLt
    cases hrp : lexLt r.logical p.logical
    · rfl
    · rcases lexLt_connected r.logical p.logical q.logical hrp with hl | hr
      · rw [hl] at h2f; cases h2f
      · rw [hr] at h1f; cases h1f
  · intro h1 h2
    have h1f : lexLt q.logical p.logical = false := by
      have : (!(fqLt q p)) = true := h1
      simpa [fqLt] using this
    have h2f : lexLt p.logical q.logical = false := by
      have : (!(fqLt p q)) = true := h2
      simpa [fqLt] using this
    exact lexLt_eq_of_not_lt _ _ h2f h1f

/-- Witness for C6: `{1,2}` is lexicographically less than `{1,2,3}`
(a strict prefix is smaller). -/
theorem c6_witness :
    fqLt (FlatQueue.fromList [1, 2]) (FlatQueue.fromList ([1, 2, 3] : List Nat)) = true :=
  (c6_order_spec Nat (FlatQueue.fromList [1, 2]) (FlatQueue.fromList [1, 2, 3])
    (FlatQueue.fromList [1, 2])).1.mpr
    (List.Lex.cons (List.Lex.cons List.Lex.nil))

/-- Claim C7: `reserve(n)` on an empty queue requests capacity `n`
directly on the vector (capacity becomes `max(C, n)`) and touches
neither the elements nor `front_offset`; on a non-empty queue it calls
the compaction primitive with multiplier `n / size()`, after which
`front_offset` is 0 and the logical sequence is unchanged — including in
the flagged case `n < size()`, where the computed multiplier
`n / size()` is below 1. -/
theorem c7_reserve_spec (α : Type) (q : FlatQueue α) (n : Nat) :
    (q.empty = true →
        q.reserve n = ⟨q.data_.reserve n, q.true_front⟩ ∧
        (q.reserve n).data_.elems = q.data_.elems ∧
        (q.reserve n).true_front = q.true_front ∧
        (q.reserve n).data_.cap = max q.data_.cap n) ∧
    (q.empty = false →
        q.reserve n = q.compress_and_reserve ⟨n, q.size⟩ ∧
        (q.reserve n).true_front = 0 ∧
        (q.reserve n).logical = q.logical ∧
        (n < q.size → ((n : ℚ) / ((q.size : Nat) : ℚ)) < 1)) := by
  constructor
  · intro he
    rw [FlatQueue.reserve, if_pos he]
    exact ⟨rfl, Vec.reserve_elems _ _, rfl, Vec.reserve_cap _ _⟩
  · intro he
    rw [FlatQueue.reserve, if_neg (by rw [he]; exact Bool.false_ne_true)]
    refine ⟨rfl, FlatQueue.compress_true_front _ _, FlatQueue.compress_logical _ _, ?_⟩
    intro hn
    have hs : (0 : ℚ) < ((q.size : Nat) : ℚ) := by
      exact_mod_cast Nat.pos_of_ne_zero (by omega)
    rw [div_lt_one hs]
    exact_mod_cast hn

/-- Witness for C7 on the non-empty queue `[4, 5]` with `n = 1 < size() = 2`
(the flagged sub-unit-multiplier case): offset ends 0 and the logical
elements survive. -/
theorem c7_witness :
    FlatQueue.empty (⟨⟨[4, 5], 2⟩, 0⟩ : FlatQueue Nat) = false ∧
    (FlatQueue.reserve (⟨⟨[4, 5], 2⟩, 0⟩ : FlatQueue Nat) 1).true_front = 0 ∧
    (FlatQueue.reserve (⟨⟨[4, 5], 2⟩, 0⟩ : FlatQueue Nat) 1).logical = [4, 5] :=
  ⟨by decide,
    ((c7_reserve_spec Nat ⟨⟨[4, 5], 2⟩, 0⟩ 1).2 (by decide)).2.1,
    (((c7_reserve_spec Nat ⟨⟨[4, 5], 2⟩, 0⟩ 1).2 (by decide)).2.2.1).trans (by decide)⟩

/-- Claim C8, counterexample: after pushing 100 elements and popping 60,
the buffer length is not 40 and `front_offset` is not 0 (the reclaim
already fired at the 51st pop, not at the 60th). -/
theorem c8_counterexample :
    ¬ (scenario4.data_.elems.length = 40 ∧ scenario4.true_front = 0) := by
  decide

/-- Claim C8 (amended): pushing 100 elements and then popping 60 one at
a time triggers the reclaim at the 51st pop, when `front_offset` (51)
first exceeds half the buffer length (100 / 2 = 50) — not when the dead
count reaches 60; the 51st pop compacts to buffer length 49 with offset
0, and after all 60 pops the buffer length is 49, the logical size is
40 and `front_offset` is 9. -/
theorem c8_amended :
    (popN (pushSeq (emptyQ Nat) 100) 50).true_front = 50 ∧
    (popN (pushSeq (emptyQ Nat) 100) 50).data_.elems.length = 100 ∧
    (popN (pushSeq (emptyQ Nat) 100) 51).true_front = 0 ∧
    (popN (pushSeq (emptyQ Nat) 100) 51).data_.elems.length = 49 ∧
    scenario4.data_.elems.length = 49 ∧
    scenario4.size = 40 ∧
    scenario4.true_front = 9 := by
  decide

/-- Claim C9 is violated by the code: the defaulted move leaves the
moved-from source of `flat_queue{7,8}` after one `pop()` with
`front_offset = 1` strictly greater than its (emptied) buffer length 0,
breaking the invariant `front_offset <= L`. -/
theorem c9_invariant_violation :
    (FlatQueue.move_construct ((FlatQueue.fromList [7, 8]).pop)).2.data_.elems.length <
      (FlatQueue.move_construct ((FlatQueue.fromList [7, 8]).pop)).2.true_front := by
  decide

/-- Claim C10: `operator=(std::initializer_list)` does set the buffer to
the list elements with `front_offset = 0`, but the function body ends
without any `return` statement, so no execution path returns `*this`
(the `none` in the model): the declared `flat_queue&` result is never
produced, which is undefined behavior in C++. -/
theorem c10_assign_list_eval :
    ((⟨⟨[9], 1⟩, 0⟩ : FlatQueue Nat).assignInitList [1, 2]).1 = ⟨⟨[1, 2], 2⟩, 0⟩ ∧
    ((⟨⟨[9], 1⟩, 0⟩ : FlatQueue Nat).assignInitList [1, 2]).2 = none := by
  decide
